import Mathlib

/-!
Verification of the multi-tenant request-execution substrate of the
rouptimize back-end: the request-context pipeline
(`src/common/request-context/request-context.interceptor.ts`,
`request-context.service.ts`), the refresh-token rotation service
(`RefreshTokenService`), the mobile-user invite registration
(`MobileUserService`, `MobileUserRepository`), the company-balance gate
(`CompanyBalanceService`) and the authorization guard (`RolesGuard`),
as a shallow embedding.  External effects are made explicit: random UUIDs
and bcrypt are passed in as parameters, database tables are lists of rows,
and the per-request transaction is a trace of connection events.
-/

deriving instance DecidableEq for Except

namespace Rouptimize

/-- JavaScript truthiness of an optional string: `undefined`, `null` and the
empty string are all falsy. -/
def jsTruthy : Option String → Bool
  | none => false
  | some s => decide (s ≠ "")

/-- JavaScript `x || undefined` on an optional string: the empty string
collapses to `none`. -/
def orUndefined : Option String → Option String
  | none => none
  | some s => if s = "" then none else some s

/-- The `RequestContextData` type of `request-context.service.ts` (without the
database handles, which carry no data). -/
structure RequestContextData where
  companyId : Option String
  branchId : Option String
  userId : Option String
  actorType : Option String
  isSuperAdmin : Bool
  roleName : Option String
  permissions : List String
deriving Repr, DecidableEq

namespace RequestContextService

/-- Method `isSuperAdmin` of `RequestContextService`:
`storage.getStore()?.isSuperAdmin ?? false`. -/
def isSuperAdmin (store : Option RequestContextData) : Bool :=
  (store.map (fun c => c.isSuperAdmin)).getD false

/-- Method `isCompanyAdmin` of `RequestContextService`:
`storage.getStore()?.roleName === 'companyAdmin'`. -/
def isCompanyAdmin (store : Option RequestContextData) : Bool :=
  decide (store.bind (fun c => c.roleName) = some "companyAdmin")

/-- Method `branchId` of `RequestContextService`:
`storage.getStore()?.branchId`. -/
def branchId (store : Option RequestContextData) : Option String :=
  store.bind (fun c => c.branchId)

/-- Method `getEffectiveBranchId` of `RequestContextService`
(`src/common/request-context/request-context.service.ts`): admins
(company admin or superadmin) may filter by the query parameter, everyone
else is pinned to their own branch. -/
def getEffectiveBranchId (store : Option RequestContextData)
    (queryBranchId : Option String) : Option String :=
  if isCompanyAdmin store || isSuperAdmin store then queryBranchId
  else branchId store

end RequestContextService

/-! ## Request-context interceptor (`request-context.interceptor.ts`) -/

/-- A row of the `user` / `mobile_user` table, restricted to the columns that
the interceptor's refresh query selects plus the soft-delete marker. -/
structure UserRow where
  id : String
  companyId : Option String
  branchId : Option String
  isSuperAdmin : Bool
  deletedAt : Option Nat
deriving Repr, DecidableEq

/-- The two actor tables the refresh phase can read. -/
structure UsersDb where
  webUsers : List UserRow
  mobileUsers : List UserRow
deriving Repr, DecidableEq

/-- Connection events issued by the interceptor on the pooled client, in
program order. -/
inductive Ev
  | acquire
  | beginTx
  | setRole
  | setSuper (flag : Bool)
  | setCompany (value : String)
  | queryUser
  | handlerRun
  | commit
  | rollback
  | release
deriving Repr, DecidableEq

/-- Errors surfaced by the pipeline: `UnauthorizedException` (HTTP 401) from
the setup phase, or an error thrown by the handler itself. -/
inductive PErr
  | unauthenticated
  | handlerError
deriving Repr, DecidableEq

/-- The refresh query of `refreshUserContext`: `SELECT "companyId",
"branchId", "isSuperAdmin" FROM "user" / "mobile_user" WHERE id = $1 AND
"deletedAt" IS NULL LIMIT 1`, dispatched on `data.actorType ?? 'web'`. -/
def lookupUser (db : UsersDb) (actorType : Option String)
    (userId : Option String) : Option UserRow :=
  let table := if actorType.getD "web" = "mobile" then db.mobileUsers else db.webUsers
  table.find? (fun r => some r.id = userId && r.deletedAt = none)

/-- Method `refreshUserContext` of `RequestContextInterceptor`: re-read the
authoritative actor row; missing row means `UnauthorizedException`; otherwise
adopt the row's `companyId`, `branchId` and `isSuperAdmin`. -/
def refreshUserContext (db : UsersDb) (data : RequestContextData) :
    Except PErr RequestContextData :=
  match lookupUser db data.actorType data.userId with
  | none => .error .unauthenticated
  | some row =>
    .ok { data with
            companyId := row.companyId
            branchId := row.branchId
            isSuperAdmin := row.isSuperAdmin }

/-- The context adopted by the refresh phase: the token-derived data with
`companyId`, `branchId` and `isSuperAdmin` replaced by the database row's
values. -/
def adoptRow (data : RequestContextData) (row : UserRow) : RequestContextData :=
  { data with
      companyId := row.companyId
      branchId := row.branchId
      isSuperAdmin := row.isSuperAdmin }

/-- Method `setRlsContext` of `RequestContextInterceptor`: superadmins get
`app.is_superadmin = 'true'` and an empty `app.current_company_id`; everyone
else needs a (truthy) `companyId`, which becomes the session variable. -/
def setRlsContext (data : RequestContextData) : Except PErr (List Ev) :=
  if data.isSuperAdmin then .ok [.setSuper true, .setCompany ""]
  else if jsTruthy data.companyId then
    .ok [.setSuper false, .setCompany (data.companyId.getD "")]
  else .error .unauthenticated

/-- Method `setupTransaction` of `RequestContextInterceptor`: acquire a
client, `BEGIN`, `SET LOCAL ROLE`, refresh the actor when a `userId` claim is
present (emitting the lookup-mode session variables and the query), then bind
the RLS session variables; on any failure, `ROLLBACK` and release. -/
def setupTransaction (db : UsersDb) (data : RequestContextData) :
    List Ev × Except PErr RequestContextData :=
  let pre : List Ev := [.acquire, .beginTx, .setRole]
  let refreshEvs : List Ev :=
    if jsTruthy data.userId then [.setSuper true, .setCompany "", .queryUser] else []
  let refreshed : Except PErr RequestContextData :=
    if jsTruthy data.userId then refreshUserContext db data else .ok data
  match refreshed with
  | .error e => (pre ++ refreshEvs ++ [.rollback, .release], .error e)
  | .ok eff =>
    match setRlsContext eff with
    | .error e => (pre ++ refreshEvs ++ [.rollback, .release], .error e)
    | .ok rlsEvs => (pre ++ refreshEvs ++ rlsEvs, .ok eff)

/-- Outcome of one transactional request: the event trace on the pooled
connection, the propagated result, and the context installed for the handler
(`none` when setup failed and the handler never ran). -/
structure PipelineRun where
  events : List Ev
  outcome : Except PErr Unit
  installed : Option RequestContextData
deriving Repr

/-- Method `runWithTransaction` of `RequestContextInterceptor`: set up the
transaction, install the effective context, run the handler, then commit on
success or roll back on error, releasing the client either way. -/
def runWithTransaction (db : UsersDb) (data : RequestContextData)
    (handlerOk : Bool) : PipelineRun :=
  match setupTransaction db data with
  | (evs, .error e) => { events := evs, outcome := .error e, installed := none }
  | (evs, .ok eff) =>
    if handlerOk then
      { events := evs ++ [.handlerRun, .commit, .release]
        outcome := .ok ()
        installed := some eff }
    else
      { events := evs ++ [.handlerRun, .rollback, .release]
        outcome := .error .handlerError
        installed := some eff }

/-- Number of occurrences of one event in a trace. -/
def countEv (e : Ev) : List Ev → Nat
  | [] => 0
  | x :: xs => (if x = e then 1 else 0) + countEv e xs

/-! ## Refresh-token service (`RefreshTokenService`) -/

/-- A row of the `refresh_token` table (`tokenHash text NOT NULL`,
`expiresAt NOT NULL`, `isRevoked NOT NULL`, `familyId uuid NOT NULL`). -/
structure RefreshTokenRow where
  id : String
  userId : Option String
  mobileUserId : Option String
  tokenHash : String
  expiresAt : Nat
  isRevoked : Bool
  familyId : String
deriving Repr, DecidableEq

/-- Failure modes of `rotateRefreshToken`; every constructor maps to
`UnauthorizedException` (HTTP 401) in the source. -/
inductive RotateErr
  | invalidFormat
  | invalidToken
  | reused
  | expired
deriving Repr, DecidableEq

/-- Result of `generateRefreshToken`. -/
structure IssuedToken where
  token : String
  familyId : String
  expiresAt : Nat
deriving Repr, DecidableEq

/-- Result of a successful `rotateRefreshToken`. -/
structure RotateResult where
  token : String
  userId : Option String
  mobileUserId : Option String
deriving Repr, DecidableEq

/-- Expiry timestamp: `expiresAt.setDate(getDate() + expiresInDays)`,
abstracted as adding whole days in milliseconds. -/
def addDaysMs (now days : Nat) : Nat := now + days * 86400000

/-- Method `generateRefreshToken` of `RefreshTokenService`: a fresh random
secret (`uuidv4()`), its bcrypt hash stored in a new row, family id taken
from the argument when truthy and freshly generated otherwise, and the opaque
client token `<rowId>.<secret>`.  The externals are parameters: `h` is
bcrypt, `freshSecret`/`freshFamilyId`/`newRowId` the random UUIDs drawn. -/
def generateRefreshToken (h : String → String)
    (freshSecret freshFamilyId newRowId : String)
    (userId mobileUserId : Option String) (familyId : Option String)
    (now expiresInDays : Nat) (db : List RefreshTokenRow) :
    List RefreshTokenRow × IssuedToken :=
  let tokenHash := h freshSecret
  let expiresAt := addDaysMs now expiresInDays
  let newFamilyId := if jsTruthy familyId then familyId.getD freshFamilyId else freshFamilyId
  let row : RefreshTokenRow :=
    { id := newRowId
      userId := orUndefined userId
      mobileUserId := orUndefined mobileUserId
      tokenHash := tokenHash
      expiresAt := expiresAt
      isRevoked := false
      familyId := newFamilyId }
  (db ++ [row],
   { token := newRowId ++ "." ++ freshSecret
     familyId := newFamilyId
     expiresAt := expiresAt })

/-- JavaScript `String.prototype.split` with a one-character separator,
modelled structurally on the character list (so it evaluates): splitting the
empty string yields one empty piece, separators delimit possibly empty
pieces. -/
def splitOnChar (sep : Char) : List Char → List (List Char)
  | [] => [[]]
  | c :: rest =>
    match splitOnChar sep rest with
    | [] => [[]]
    | cur :: parts =>
      if c = sep then [] :: cur :: parts else (c :: cur) :: parts

/-- Parsing `const [id, secret] = oldToken.split('.')` followed by the
falsiness check `if (!id || !secret)`. -/
def parseRefreshToken (t : String) : Option (String × String) :=
  match splitOnChar '.' t.data with
  | tokenId :: secret :: _ =>
    if tokenId = [] || secret = [] then none
    else some (String.mk tokenId, String.mk secret)
  | _ => none

/-- Method `revokeFamily` of `RefreshTokenService`: mark every row with the
given `familyId` as revoked. -/
def revokeFamily (db : List RefreshTokenRow) (familyId : String) :
    List RefreshTokenRow :=
  db.map (fun r => if r.familyId = familyId then { r with isRevoked := true } else r)

/-- The `UPDATE ... SET isRevoked = true WHERE id = $1` used by rotation and
by `revokeRefreshToken`. -/
def revokeById (db : List RefreshTokenRow) (tokenId : String) :
    List RefreshTokenRow :=
  db.map (fun r => if r.id = tokenId then { r with isRevoked := true } else r)

/-- Method `rotateRefreshToken` of `RefreshTokenService`: parse, load the row
by id, detect reuse (revoked row: revoke the whole family, then fail), check
the bcrypt hash (`cmp`), check expiry, then revoke the presented row and
issue a replacement in the same family for the same owner. -/
def rotateRefreshToken (h : String → String) (cmp : String → String → Bool)
    (freshSecret freshFamilyId newRowId : String) (now expiresInDays : Nat)
    (db : List RefreshTokenRow) (oldToken : String) :
    List RefreshTokenRow × Except RotateErr RotateResult :=
  match parseRefreshToken oldToken with
  | none => (db, .error .invalidFormat)
  | some (tokenId, secret) =>
    match db.find? (fun r => r.id = tokenId) with
    | none => (db, .error .invalidToken)
    | some storedToken =>
      if storedToken.isRevoked then
        (revokeFamily db storedToken.familyId, .error .reused)
      else if !cmp secret storedToken.tokenHash then
        (db, .error .invalidToken)
      else if decide (storedToken.expiresAt < now) then
        (db, .error .expired)
      else
        let db1 := revokeById db tokenId
        let res := generateRefreshToken h freshSecret freshFamilyId newRowId
          storedToken.userId storedToken.mobileUserId (some storedToken.familyId)
          now expiresInDays db1
        (res.1,
         .ok { token := res.2.token
               userId := storedToken.userId
               mobileUserId := storedToken.mobileUserId })

/-- A hexadecimal digit, as accepted by the spec's token grammar. -/
def isHexDigit (c : Char) : Bool :=
  c.isDigit || (decide ('a' ≤ c) && decide (c ≤ 'f')) || (decide ('A' ≤ c) && decide (c ≤ 'F'))

/-- The secret format asserted by the specification: a pure hexadecimal
string of at least 32 characters. -/
def specHexSecret (s : String) : Bool :=
  s.data.all isHexDigit && decide (32 ≤ s.length)

/-- A group of exactly `n` hexadecimal digits. -/
def isHexGroup (n : Nat) (l : List Char) : Bool :=
  decide (l.length = n) && l.all isHexDigit

/-- The output format of `uuidv4()` from the `uuid` package: five hyphenated
hexadecimal groups of sizes 8-4-4-4-12 (32 hex digits in total), with version
nibble `4` and a variant nibble in 8/9/a/b. -/
def isUuidV4String (s : String) : Bool :=
  match splitOnChar '-' s.data with
  | [a, b, c, d, e] =>
    isHexGroup 8 a && isHexGroup 4 b && isHexGroup 4 c && isHexGroup 4 d &&
    isHexGroup 12 e &&
    (match c with
     | c0 :: _ => c0 = '4'
     | [] => false) &&
    (match d with
     | d0 :: _ => d0 = '8' || d0 = '9' || d0 = 'a' || d0 = 'b'
     | [] => false)
  | _ => false

/-- A concrete value in the image of `uuidv4()`. -/
def uuidSecretSample : String := "1b9d6bcd-bbfd-4b2d-9b5d-ab8dfbbd4bed"

/-! ## Mobile users, invite registration and credential validation
(`mobile-user.service.ts`, `mobile-user.repository.ts`) -/

/-- A row of the `mobile_user` table, restricted to the columns the auth and
registration paths touch. -/
structure MobileUserRow where
  id : String
  username : String
  password : String
  companyId : String
  name : Option String
  branchId : Option String
  driverId : Option String
  permissions : Option String
  isBlocked : Bool
  isSuperAdmin : Bool
  deletedAt : Option Nat
deriving Repr, DecidableEq

/-- A row of the `driver_invite` table (with the joined driver's name in
place of the `driver` relation). -/
structure InviteRow where
  id : String
  code : String
  companyId : String
  branchId : Option String
  driverId : Option String
  driverName : Option String
  expiresAt : Option Nat
  usedAt : Option Nat
  usedByMobileUserId : Option String
deriving Repr, DecidableEq

/-- Errors of `registerWithInviteCode`; every constructor maps to
`BadRequestException` (HTTP 400) in the source. -/
inductive RegErr
  | invalidOrUsed
  | expired
  | usernameTaken
deriving Repr, DecidableEq

/-- Errors of `validateMobileUser` and `pickSeed`:
`badRequestMultiple` is the `BadRequestException` asking for a `companyId`,
the other two are `UnauthorizedException` (HTTP 401). -/
inductive MobileAuthErr
  | badRequestMultiple
  | unauthorizedBlocked
  | unauthorizedNotFound
deriving Repr, DecidableEq

/-- The tables touched by invite registration. -/
structure RegState where
  invites : List InviteRow
  mobileUsers : List MobileUserRow
deriving Repr, DecidableEq

/-- `DEFAULT_MOBILE_PERMISSIONS_STRING` from
`auth/shared/constants/permissions.ts`. -/
def DEFAULT_MOBILE_PERMISSIONS_STRING : String :=
  "missions.read,missions.update,routes.read"

/-- Method `normalizeUsername` of `MobileUserService`:
`username.trim().toLowerCase()`, modelled on the character list (strip
leading and trailing whitespace, then lowercase each character). -/
def normalizeUsername (username : String) : String :=
  String.mk
    ((((username.data.dropWhile Char.isWhitespace).reverse.dropWhile
        Char.isWhitespace).reverse).map Char.toLower)

/-- Repository method `findValidInviteByCode`: first invite with the given
code and `usedAt IS NULL`. -/
def findValidInviteByCode (invites : List InviteRow) (code : String) :
    Option InviteRow :=
  invites.find? (fun i => i.code = code && i.usedAt = none)

/-- Repository method `findByUsernameAndCompanyId`: first live mobile user
with the given username in the given company. -/
def findByUsernameAndCompanyId (users : List MobileUserRow)
    (username companyId : String) : Option MobileUserRow :=
  users.find? (fun u =>
    u.username = username && u.companyId = companyId && u.deletedAt = none)

/-- Repository method `markInviteAsUsed`: stamp `usedAt` and
`usedByMobileUserId` on the invite row. -/
def markInviteAsUsed (invites : List InviteRow) (inviteId newUserId : String)
    (now : Nat) : List InviteRow :=
  invites.map (fun i =>
    if i.id = inviteId then
      { i with usedAt := some now, usedByMobileUserId := some newUserId }
    else i)

/-- The expiry test `invite.expiresAt && new Date(invite.expiresAt) < new
Date()` of `registerWithInviteCode`. -/
def inviteExpired (invite : InviteRow) (now : Nat) : Bool :=
  match invite.expiresAt with
  | some e => decide (e < now)
  | none => false

/-- The mobile-user row inserted by `registerWithInviteCode` via the
repository's `create`: normalized username, bcrypt-hashed password, tenant
and driver data copied from the invite, default mobile permissions, not
blocked. -/
def newMobileUserFromInvite (invite : InviteRow) (normalized passwordHash
    newId : String) : MobileUserRow :=
  { id := newId
    username := normalized
    password := passwordHash
    companyId := invite.companyId
    name := invite.driverName
    branchId := invite.branchId
    driverId := invite.driverId
    permissions := some DEFAULT_MOBILE_PERMISSIONS_STRING
    isBlocked := false
    isSuperAdmin := false
    deletedAt := none }

/-- Method `registerWithInviteCode` of `MobileUserService`: one transaction
that validates the invite, checks expiry and username uniqueness, inserts the
mobile user and marks the invite used; any failure rolls the whole
transaction back, so the state is returned unchanged.  `h` is bcrypt and
`newId` the server-generated row id. -/
def registerWithInviteCode (st : RegState)
    (username password inviteCode : String) (now : Nat) (newId : String)
    (h : String → String) : RegState × Except RegErr MobileUserRow :=
  match findValidInviteByCode st.invites inviteCode with
  | none => (st, .error .invalidOrUsed)
  | some invite =>
    if inviteExpired invite now then (st, .error .expired)
    else
      let normalized := normalizeUsername username
      match findByUsernameAndCompanyId st.mobileUsers normalized invite.companyId with
      | some _ => (st, .error .usernameTaken)
      | none =>
        let created := newMobileUserFromInvite invite normalized (h password) newId
        ({ invites := markInviteAsUsed st.invites invite.id newId now
           mobileUsers := st.mobileUsers ++ [created] },
         .ok created)

/-- Method `pickSeed` of `MobileUserService`: with a (truthy) `companyId`,
look the user up inside that tenant; without one, search across tenants and
demand a `companyId` when the username is ambiguous. -/
def pickSeed (db : List MobileUserRow) (username : String)
    (companyId : Option String) :
    Except MobileAuthErr (Option MobileUserRow) :=
  if jsTruthy companyId then
    .ok (db.find? (fun u =>
      u.username = username && some u.companyId = companyId && u.deletedAt = none))
  else
    match db.filter (fun u => u.username = username && u.deletedAt = none) with
    | [] => .ok none
    | [s] => .ok (some s)
    | _ => .error .badRequestMultiple

/-- Method `validateMobileUser` of `MobileUserService`: normalize, pick the
seed, reject blocked accounts before any password comparison, compare the
password (`cmp` is bcrypt-compare), then re-read the full record under a
fresh RLS-bootstrapped transaction (`fullLookup`). -/
def validateMobileUser (cmp : String → String → Bool)
    (fullLookup : MobileUserRow → Option MobileUserRow)
    (db : List MobileUserRow) (username password : String)
    (companyId : Option String) :
    Except MobileAuthErr (Option MobileUserRow) :=
  match pickSeed db (normalizeUsername username) companyId with
  | .error e => .error e
  | .ok none => .ok none
  | .ok (some seed) =>
    if seed.isBlocked then .error .unauthorizedBlocked
    else if !cmp password seed.password then .ok none
    else
      match fullLookup seed with
      | none => .error .unauthorizedNotFound
      | some full => .ok (some full)

/-! ## Roles guard (`roles.guard.ts`) -/

/-- The `role` claim of a decoded JWT user. -/
structure JwtRoleClaim where
  name : Option String
  authorizations : Option (List String)
deriving Repr, DecidableEq

/-- The decoded JWT user, restricted to the fields the guard reads. -/
structure JwtUser where
  userId : Option String
  actorType : Option String
  isSuperAdmin : Bool
  role : Option JwtRoleClaim
deriving Repr, DecidableEq

/-- Result of a denied guard check (`ForbiddenException`, HTTP 403). -/
inductive GuardErr
  | forbidden
deriving Repr, DecidableEq

/-- The mobile self-service carve-out of `RolesGuard.canActivate`: a mobile
actor calling a handler named `update` or `findOne` whose `params.id` equals
its own `userId`. -/
def mobileSelfAllowed (user : Option JwtUser) (handlerName : String)
    (paramsId : Option String) : Bool :=
  match user with
  | none => false
  | some u =>
    u.actorType = some "mobile" &&
    (handlerName = "update" || handlerName = "findOne") &&
    u.userId = paramsId

/-- Method `canActivate` of `RolesGuard` (`auth/shared/roles/roles.guard.ts`):
empty requirement allows, superadmin allows, the mobile self-service case
allows, otherwise the actor's `role.authorizations` must contain every
required permission. -/
def canActivate (required : Option (List String)) (user : Option JwtUser)
    (handlerName : String) (paramsId : Option String) :
    Except GuardErr Bool :=
  match required with
  | none => .ok true
  | some req =>
    if req.isEmpty then .ok true
    else if (match user with | some u => u.isSuperAdmin | none => false) then .ok true
    else if mobileSelfAllowed user handlerName paramsId then .ok true
    else
      match user.bind (fun u => u.role) with
      | none => .error .forbidden
      | some role =>
        match role.authorizations with
        | none => .error .forbidden
        | some auths =>
          if req.all (fun p => decide (p ∈ auths)) then .ok true
          else .error .forbidden

/-! ## Company-balance gate (`company-balance.service.ts`) -/

/-- The `company_balance_type_enum` values. -/
inductive CompanyBalanceType
  | perMissions
  | perVehiclesPerMonth
deriving Repr, DecidableEq

/-- The `CompanyBalanceAction` union. -/
inductive CompanyBalanceAction
  | missionCreate
  | vehicleCreate
deriving Repr, DecidableEq

/-- The `company_balance` row for one company (`companyId` is the primary
key, so each company has at most one row). -/
structure CompanyBalanceRow where
  companyId : String
  type : CompanyBalanceType
  total : Option Int
  remaining : Option Int
  monthlyLimit : Option Int
  periodStart : Option Nat
deriving Repr, DecidableEq

/-- Balance-gate failure: `ConflictException` (HTTP 409) with
`errorCode: BALANCE_EXCEEDED` and the balance type. -/
inductive BalanceErr
  | balanceExceeded (balanceType : CompanyBalanceType)
deriving Repr, DecidableEq

/-- Method `getOrInit` of `CompanyBalanceService` in sequential form: return
the existing row, or initialize one of type `per_missions` with all numeric
fields null. -/
def getOrInit (companyId : String) (existing : Option CompanyBalanceRow) :
    CompanyBalanceRow :=
  match existing with
  | some b => b
  | none =>
    { companyId := companyId
      type := CompanyBalanceType.perMissions
      total := none
      remaining := none
      monthlyLimit := none
      periodStart := none }

/-- The `WHERE` clause of the conditional counter `UPDATE` of
`consumeCounter`: `companyId = $1 AND type = $2 AND (remaining IS NULL OR
remaining > 0)`. -/
def counterWhereMatches (companyId : String) (t : CompanyBalanceType)
    (b : CompanyBalanceRow) : Bool :=
  b.companyId = companyId && b.type = t &&
  (match b.remaining with
   | none => true
   | some v => decide (0 < v))

/-- Method `consumeCounter` of `CompanyBalanceService` applied to the
company's single balance row: the conditional `UPDATE` decrements a non-null
`remaining`; zero rows updated raises `BALANCE_EXCEEDED` and leaves the row
unchanged. -/
def consumeCounter (companyId : String) (t : CompanyBalanceType)
    (b : CompanyBalanceRow) : CompanyBalanceRow × Except BalanceErr Unit :=
  if counterWhereMatches companyId t b then
    ({ b with remaining := b.remaining.map (fun v => v - 1) }, .ok ())
  else
    (b, .error (.balanceExceeded t))

/-- Method `consumeMonthly` of `CompanyBalanceService` (the single atomic
`UPDATE` of the client path): roll the period forward when `periodStart` is
null or predates the month start, resetting `remaining` from `monthlyLimit`,
then decrement; a null `monthlyLimit` row matches but is left unchanged; out
of quota means zero rows updated and `BALANCE_EXCEEDED`. -/
def consumeMonthly (companyId : String) (monthStart : Nat)
    (b : CompanyBalanceRow) : CompanyBalanceRow × Except BalanceErr Unit :=
  let rollover : Bool :=
    match b.periodStart with
    | none => true
    | some p => decide (p < monthStart)
  let whereOk : Bool :=
    b.companyId = companyId && b.type = CompanyBalanceType.perVehiclesPerMonth &&
    (b.monthlyLimit = none ||
     (rollover && decide (0 < b.monthlyLimit.getD 0)) ||
     (!rollover &&
      (match b.remaining with
       | some r => decide (0 < r)
       | none => false)))
  if whereOk then
    ({ b with
        periodStart :=
          match b.monthlyLimit with
          | none => b.periodStart
          | some _ => if rollover then some monthStart else b.periodStart
        total :=
          match b.monthlyLimit with
          | none => b.total
          | some ml => some ml
        remaining :=
          match b.monthlyLimit with
          | none => b.remaining
          | some ml => if rollover then some (ml - 1) else b.remaining.map (fun v => v - 1) },
     .ok ())
  else
    (b, .error (.balanceExceeded CompanyBalanceType.perVehiclesPerMonth))

/-- Method `consume` of `CompanyBalanceService`, acting on the current
company's balance row (the result of `getOrInit`): actions that do not match
the balance type are a no-op; otherwise dispatch to the monthly or counter
variant. -/
def consume (action : CompanyBalanceAction) (companyId : String)
    (monthStart : Nat) (current : CompanyBalanceRow) :
    CompanyBalanceRow × Except BalanceErr Unit :=
  let shouldConsume : Bool :=
    (action = CompanyBalanceAction.missionCreate &&
       current.type = CompanyBalanceType.perMissions) ||
    (action = CompanyBalanceAction.vehicleCreate &&
       current.type = CompanyBalanceType.perVehiclesPerMonth)
  if !shouldConsume then (current, .ok ())
  else if current.type = CompanyBalanceType.perVehiclesPerMonth then
    consumeMonthly companyId monthStart current
  else
    consumeCounter companyId current.type current

/-! ## Concrete sample data used to instantiate the theorems -/

/-- A blocked mobile-user row. -/
def blockedSeedSample : MobileUserRow :=
  { id := "m1"
    username := "driver1"
    password := "storedhash"
    companyId := "c1"
    name := none
    branchId := none
    driverId := none
    permissions := none
    isBlocked := true
    isSuperAdmin := false
    deletedAt := none }

/-- A `per_missions` balance row with two units remaining. -/
def balanceSample : CompanyBalanceRow :=
  { companyId := "c1"
    type := CompanyBalanceType.perMissions
    total := some 10
    remaining := some 2
    monthlyLimit := none
    periodStart := none }

/-- A revoked refresh-token row. -/
def revokedRowSample : RefreshTokenRow :=
  { id := "tok1"
    userId := some "u1"
    mobileUserId := none
    tokenHash := "hash1"
    expiresAt := 1000
    isRevoked := true
    familyId := "fam1" }

/-- A live refresh-token row in the same family. -/
def liveRowSample : RefreshTokenRow :=
  { id := "tok2"
    userId := some "u1"
    mobileUserId := none
    tokenHash := "hash2"
    expiresAt := 1000
    isRevoked := false
    familyId := "fam1" }

/-- A refresh-token table holding both sample rows. -/
def tokensDbSample : List RefreshTokenRow := [revokedRowSample, liveRowSample]

/-- The authoritative web-user row backing the pipeline samples: in the
database this user is a plain member of company `c-db`. -/
def webUserRowSample : UserRow :=
  { id := "u1"
    companyId := some "c-db"
    branchId := some "b-db"
    isSuperAdmin := false
    deletedAt := none }

/-- A users database with one web user. -/
def usersDbSample : UsersDb :=
  { webUsers := [webUserRowSample], mobileUsers := [] }

/-- Stale token claims for the same user: the token still asserts superadmin
and a different company. -/
def staleDataSample : RequestContextData :=
  { companyId := some "c-token"
    branchId := some "b-token"
    userId := some "u1"
    actorType := some "web"
    isSuperAdmin := true
    roleName := none
    permissions := [] }

/-- An unused, unexpired invite. -/
def inviteSample : InviteRow :=
  { id := "inv1"
    code := "ABCD1234"
    companyId := "c1"
    branchId := some "b1"
    driverId := some "d1"
    driverName := some "Driver One"
    expiresAt := some 500
    usedAt := none
    usedByMobileUserId := none }

/-- A registration state with the sample invite and no mobile users. -/
def regStateSample : RegState :=
  { invites := [inviteSample], mobileUsers := [] }

/-! ## Helper lemmas -/

theorem orUndefined_eq_self (o : Option String) (h : o ≠ some "") :
    orUndefined o = o := by
  cases o with
  | none => rfl
  | some s =>
    have hs : s ≠ "" := fun he => h (by rw [he])
    simp [orUndefined, hs]

theorem revokeById_map_familyId (db : List RefreshTokenRow) (tokenId : String) :
    (revokeById db tokenId).map (fun r => r.familyId) =
      db.map (fun r => r.familyId) := by
  induction db with
  | nil => rfl
  | cons a l ih =>
    by_cases ha : a.id = tokenId <;>
      simp only [revokeById, List.map_cons] at ih ⊢ <;>
      simp [ha, ih]

theorem revokeFamily_revokes (db : List RefreshTokenRow) (familyId : String) :
    ∀ r ∈ revokeFamily db familyId, r.familyId = familyId → r.isRevoked = true := by
  intro r hr hfam
  simp only [revokeFamily, List.mem_map] at hr
  obtain ⟨a, ha, hra⟩ := hr
  by_cases hf : a.familyId = familyId
  · rw [if_pos hf] at hra
    rw [← hra]
  · rw [if_neg hf] at hra
    rw [← hra] at hfam
    exact absurd hfam hf

/-! ## Claim theorems -/

/-- Claim C5: for every installed request context and every (possibly absent)
`queryBranchId`, `getEffectiveBranchId` returns `queryBranchId` whenever the
context has `isSuperAdmin = true` or role name `companyAdmin`, and otherwise
returns the context's own `branchId`, ignoring `queryBranchId` entirely. -/
theorem getEffectiveBranchIdSpec (ctx : RequestContextData) (q : Option String) :
    RequestContextService.getEffectiveBranchId (some ctx) q =
      if ctx.isSuperAdmin = true ∨ ctx.roleName = some "companyAdmin" then q
      else ctx.branchId := by
  by_cases hs : ctx.isSuperAdmin = true <;>
    by_cases hr : ctx.roleName = some "companyAdmin" <;>
      simp [RequestContextService.getEffectiveBranchId,
        RequestContextService.isCompanyAdmin, RequestContextService.isSuperAdmin,
        RequestContextService.branchId, hs, hr]

/-- Claim C10: a mobile login attempt that resolves to a blocked seed fails
with the blocked-account `UnauthorizedException` for every password
comparison function — the password is never consulted and the generic
invalid-credentials `null` is never produced for a blocked account. -/
theorem blockedCheckBeforePassword (cmp : String → String → Bool)
    (fullLookup : MobileUserRow → Option MobileUserRow)
    (db : List MobileUserRow) (username password : String)
    (companyId : Option String) (seed : MobileUserRow)
    (hseed : pickSeed db (normalizeUsername username) companyId =
      .ok (some seed))
    (hblocked : seed.isBlocked = true) :
    validateMobileUser cmp fullLookup db username password companyId =
      .error .unauthorizedBlocked ∧
    validateMobileUser cmp fullLookup db username password companyId ≠
      .ok none := by
  constructor
  · simp [validateMobileUser, hseed, hblocked]
  · simp [validateMobileUser, hseed, hblocked]

theorem blockedCheckBeforePassword_witness :
    validateMobileUser (fun _ _ => false) (fun u => some u) [blockedSeedSample]
      "driver1" "wrong-password" none = .error .unauthorizedBlocked :=
  (blockedCheckBeforePassword (fun _ _ => false) (fun u => some u)
    [blockedSeedSample] "driver1" "wrong-password" none blockedSeedSample
    (by decide) (by decide)).1

/-- Claim C3: `consume('mission_create')` on a `per_missions` balance: a null
`remaining` succeeds and stays null; a positive `remaining` succeeds and
decreases by exactly one; a zero `remaining` makes the conditional `UPDATE`
match zero rows, raising `CONFLICT BALANCE_EXCEEDED` with the row unchanged;
consequently `remaining` is never decremented below zero. -/
theorem consumePerMissionsBalance (b : CompanyBalanceRow) (monthStart : Nat)
    (htype : b.type = CompanyBalanceType.perMissions) :
    (b.remaining = none →
      consume .missionCreate b.companyId monthStart b = (b, .ok ())) ∧
    (∀ r : Int, b.remaining = some r → 0 < r →
      consume .missionCreate b.companyId monthStart b =
        ({ b with remaining := some (r - 1) }, .ok ())) ∧
    (b.remaining = some 0 →
      counterWhereMatches b.companyId CompanyBalanceType.perMissions b = false ∧
      consume .missionCreate b.companyId monthStart b =
        (b, .error (.balanceExceeded CompanyBalanceType.perMissions))) ∧
    (∀ r r2 : Int, b.remaining = some r → 0 ≤ r →
      (consume .missionCreate b.companyId monthStart b).1.remaining = some r2 →
      0 ≤ r2) := by
  obtain ⟨cid, bt, tot, rem, ml, ps⟩ := b
  dsimp only at htype
  subst htype
  refine ⟨?_, ?_, ?_, ?_⟩
  · intro h0
    dsimp only at h0
    subst h0
    simp [consume, consumeCounter, counterWhereMatches]
  · intro r hrem hr
    dsimp only at hrem
    subst hrem
    simp [consume, consumeCounter, counterWhereMatches, hr]
  · intro h0
    dsimp only at h0
    subst h0
    simp [consume, consumeCounter, counterWhereMatches]
  · intro r r2 hrem hr0 hres
    dsimp only at hrem
    subst hrem
    by_cases hpos : (0 : Int) < r
    · simp [consume, consumeCounter, counterWhereMatches, hpos] at hres
      omega
    · simp [consume, consumeCounter, counterWhereMatches, hpos] at hres
      omega

theorem consumePerMissionsBalance_witness :
    consume CompanyBalanceAction.missionCreate balanceSample.companyId 0
      balanceSample = ({ balanceSample with remaining := some 1 }, .ok ()) := by
  have h := (consumePerMissionsBalance balanceSample 0 (by rfl)).2.1 2
    (by rfl) (by decide)
  simpa using h

/-- Claim C2: rotating a token whose stored row is revoked first marks every
row sharing that row's `familyId` as revoked and then fails with the
reuse `UnauthorizedException` — for every hash comparison function and every
clock value, so neither the secret nor expiry is consulted — and no new
token row is ever created for a revoked row. -/
theorem rotateReuseRevokesFamily (h : String → String)
    (cmp : String → String → Bool) (freshSecret freshFamilyId newRowId : String)
    (now expiresInDays : Nat) (db : List RefreshTokenRow)
    (oldToken tokenId secret : String) (storedToken : RefreshTokenRow)
    (hparse : parseRefreshToken oldToken = some (tokenId, secret))
    (hfind : db.find? (fun r => r.id = tokenId) = some storedToken)
    (hrev : storedToken.isRevoked = true) :
    rotateRefreshToken h cmp freshSecret freshFamilyId newRowId now
        expiresInDays db oldToken =
      (revokeFamily db storedToken.familyId, .error .reused) ∧
    (∀ r ∈ (rotateRefreshToken h cmp freshSecret freshFamilyId newRowId now
        expiresInDays db oldToken).1,
      r.familyId = storedToken.familyId → r.isRevoked = true) ∧
    (rotateRefreshToken h cmp freshSecret freshFamilyId newRowId now
        expiresInDays db oldToken).1.length = db.length := by
  have hrot : rotateRefreshToken h cmp freshSecret freshFamilyId newRowId now
      expiresInDays db oldToken =
      (revokeFamily db storedToken.familyId, .error .reused) := by
    simp [rotateRefreshToken, hparse, hfind, hrev]
  refine ⟨hrot, ?_, ?_⟩
  · rw [hrot]
    exact revokeFamily_revokes db storedToken.familyId
  · rw [hrot]
    simp [revokeFamily]

theorem rotateReuseRevokesFamily_witness :
    rotateRefreshToken (fun s => s) (fun _ _ => true) "s" "f" "n" 0 7
        tokensDbSample "tok1.whatever" =
      (revokeFamily tokensDbSample revokedRowSample.familyId, .error .reused) :=
  (rotateReuseRevokesFamily (fun s => s) (fun _ _ => true) "s" "f" "n" 0 7
    tokensDbSample "tok1.whatever" "tok1" "whatever" revokedRowSample
    (by decide) (by decide) (by decide)).1

/-- Claim C8: a successful rotation preserves the token family and owner:
the newly inserted row carries the consumed row's `familyId`, `userId` and
`mobileUserId`, and the rotation changes no existing row's `familyId` — so
iterated successful rotations all stay in the original family. -/
theorem rotateSuccessPreservesFamily (h : String → String)
    (cmp : String → String → Bool) (freshSecret freshFamilyId newRowId : String)
    (now expiresInDays : Nat) (db : List RefreshTokenRow)
    (oldToken tokenId secret : String) (storedToken : RefreshTokenRow)
    (hparse : parseRefreshToken oldToken = some (tokenId, secret))
    (hfind : db.find? (fun r => r.id = tokenId) = some storedToken)
    (hrev : storedToken.isRevoked = false)
    (hcmp : cmp secret storedToken.tokenHash = true)
    (hexp : ¬ storedToken.expiresAt < now)
    (hfam : storedToken.familyId ≠ "")
    (huid : storedToken.userId ≠ some "")
    (hmid : storedToken.mobileUserId ≠ some "") :
    ∃ newRow : RefreshTokenRow,
      rotateRefreshToken h cmp freshSecret freshFamilyId newRowId now
          expiresInDays db oldToken =
        (revokeById db tokenId ++ [newRow],
         .ok { token := newRowId ++ "." ++ freshSecret
               userId := storedToken.userId
               mobileUserId := storedToken.mobileUserId }) ∧
      newRow.id = newRowId ∧
      newRow.familyId = storedToken.familyId ∧
      newRow.userId = storedToken.userId ∧
      newRow.mobileUserId = storedToken.mobileUserId ∧
      newRow.isRevoked = false ∧
      (rotateRefreshToken h cmp freshSecret freshFamilyId newRowId now
          expiresInDays db oldToken).1.map (fun r => r.familyId) =
        db.map (fun r => r.familyId) ++ [storedToken.familyId] := by
  have hrot : rotateRefreshToken h cmp freshSecret freshFamilyId newRowId now
      expiresInDays db oldToken =
      (revokeById db tokenId ++
        [{ id := newRowId
           userId := storedToken.userId
           mobileUserId := storedToken.mobileUserId
           tokenHash := h freshSecret
           expiresAt := addDaysMs now expiresInDays
           isRevoked := false
           familyId := storedToken.familyId }],
       .ok { token := newRowId ++ "." ++ freshSecret
             userId := storedToken.userId
             mobileUserId := storedToken.mobileUserId }) := by
    simp [rotateRefreshToken, hparse, hfind, hrev, hcmp, hexp,
      generateRefreshToken, jsTruthy, hfam,
      orUndefined_eq_self _ huid, orUndefined_eq_self _ hmid]
  refine ⟨_, hrot, rfl, rfl, rfl, rfl, rfl, ?_⟩
  rw [hrot]
  simp [revokeById_map_familyId]

theorem rotateSuccessPreservesFamily_witness :
    ∃ newRow : RefreshTokenRow,
      rotateRefreshToken (fun s => s) (fun _ _ => true) "secret3" "f" "tok3"
          500 7 tokensDbSample "tok2.hash2" =
        (revokeById tokensDbSample "tok2" ++ [newRow],
         .ok { token := "tok3" ++ "." ++ "secret3"
               userId := liveRowSample.userId
               mobileUserId := liveRowSample.mobileUserId }) ∧
      newRow.id = "tok3" ∧
      newRow.familyId = liveRowSample.familyId ∧
      newRow.userId = liveRowSample.userId ∧
      newRow.mobileUserId = liveRowSample.mobileUserId ∧
      newRow.isRevoked = false ∧
      (rotateRefreshToken (fun s => s) (fun _ _ => true) "secret3" "f" "tok3"
          500 7 tokensDbSample "tok2.hash2").1.map (fun r => r.familyId) =
        tokensDbSample.map (fun r => r.familyId) ++ [liveRowSample.familyId] :=
  rotateSuccessPreservesFamily (fun s => s) (fun _ _ => true) "secret3" "f"
    "tok3" 500 7 tokensDbSample "tok2.hash2" "tok2" "hash2" liveRowSample
    (by decide) (by decide) (by decide) (by decide) (by decide) (by decide)
    (by decide) (by decide)

theorem countEv_append (e : Ev) (l1 l2 : List Ev) :
    countEv e (l1 ++ l2) = countEv e l1 + countEv e l2 := by
  induction l1 with
  | nil => simp [countEv]
  | cons a l ih => simp [countEv, ih, Nat.add_assoc]

theorem setRlsContext_shape (d : RequestContextData) :
    (∃ b c, setRlsContext d = .ok [Ev.setSuper b, Ev.setCompany c]) ∨
    setRlsContext d = .error .unauthenticated := by
  cases h1 : d.isSuperAdmin with
  | false =>
    cases h2 : jsTruthy d.companyId with
    | false => exact Or.inr (by simp [setRlsContext, h1, h2])
    | true =>
      exact Or.inl ⟨false, d.companyId.getD "", by simp [setRlsContext, h1, h2]⟩
  | true => exact Or.inl ⟨true, "", by simp [setRlsContext, h1]⟩

theorem setupTransaction_shape (db : UsersDb) (data : RequestContextData) :
    (∃ eff b c,
      setupTransaction db data =
        ([Ev.acquire, Ev.beginTx, Ev.setRole] ++
          (if jsTruthy data.userId then
            [Ev.setSuper true, Ev.setCompany "", Ev.queryUser] else []) ++
          [Ev.setSuper b, Ev.setCompany c], .ok eff)) ∨
    (∃ e,
      setupTransaction db data =
        ([Ev.acquire, Ev.beginTx, Ev.setRole] ++
          (if jsTruthy data.userId then
            [Ev.setSuper true, Ev.setCompany "", Ev.queryUser] else []) ++
          [Ev.rollback, Ev.release], .error e)) := by
  rcases hr : (if jsTruthy data.userId then refreshUserContext db data
      else Except.ok data) with e | eff
  · right
    exact ⟨e, by simp [setupTransaction, hr]⟩
  · rcases setRlsContext_shape eff with ⟨b, c, hs⟩ | hs
    · left
      exact ⟨eff, b, c, by simp [setupTransaction, hr, hs]⟩
    · right
      exact ⟨PErr.unauthenticated, by simp [setupTransaction, hr, hs]⟩

/-- Claim C4: every request handled by the transactional pipeline issues
exactly one COMMIT (handler success) or exactly one ROLLBACK (handler error
or setup failure), never both, and the single connection release comes
immediately after that COMMIT/ROLLBACK as the final event. -/
theorem transactionTeardownExactlyOnce (db : UsersDb)
    (data : RequestContextData) (handlerOk : Bool) :
    ((countEv .commit (runWithTransaction db data handlerOk).events = 1 ∧
      countEv .rollback (runWithTransaction db data handlerOk).events = 0) ∨
     (countEv .commit (runWithTransaction db data handlerOk).events = 0 ∧
      countEv .rollback (runWithTransaction db data handlerOk).events = 1)) ∧
    countEv .release (runWithTransaction db data handlerOk).events = 1 ∧
    ∃ l c, (runWithTransaction db data handlerOk).events = l ++ [c, Ev.release] ∧
      (c = Ev.commit ∨ c = Ev.rollback) := by
  rcases setupTransaction_shape db data with ⟨eff, b, c0, hs⟩ | ⟨e, hs⟩
  · cases handlerOk with
    | true =>
      refine ⟨Or.inl ⟨?_, ?_⟩, ?_,
        ⟨([Ev.acquire, Ev.beginTx, Ev.setRole] ++
          (if jsTruthy data.userId then
            [Ev.setSuper true, Ev.setCompany "", Ev.queryUser] else []) ++
          [Ev.setSuper b, Ev.setCompany c0]) ++ [Ev.handlerRun],
         Ev.commit, ?_, Or.inl rfl⟩⟩ <;>
        cases hu : jsTruthy data.userId <;>
          simp [runWithTransaction, hs, hu, countEv_append, countEv,
            List.append_assoc]
    | false =>
      refine ⟨Or.inr ⟨?_, ?_⟩, ?_,
        ⟨([Ev.acquire, Ev.beginTx, Ev.setRole] ++
          (if jsTruthy data.userId then
            [Ev.setSuper true, Ev.setCompany "", Ev.queryUser] else []) ++
          [Ev.setSuper b, Ev.setCompany c0]) ++ [Ev.handlerRun],
         Ev.rollback, ?_, Or.inr rfl⟩⟩ <;>
        cases hu : jsTruthy data.userId <;>
          simp [runWithTransaction, hs, hu, countEv_append, countEv,
            List.append_assoc]
  · refine ⟨Or.inr ⟨?_, ?_⟩, ?_,
      ⟨[Ev.acquire, Ev.beginTx, Ev.setRole] ++
        (if jsTruthy data.userId then
          [Ev.setSuper true, Ev.setCompany "", Ev.queryUser] else []),
       Ev.rollback, ?_, Or.inr rfl⟩⟩ <;>
      cases hu : jsTruthy data.userId <;>
        simp [runWithTransaction, hs, hu, countEv_append, countEv,
          List.append_assoc]

/-- Claim C1: an authenticated request entering the transactional pipeline
has its effective context re-read from the authoritative user row: when no
live row exists the pipeline fails `UNAUTHENTICATED`, never runs the
handler, and rolls back and releases the connection; when the row exists,
the context used for the RLS bind phase and installed for the handler
carries the row's `companyId`, `branchId` and `isSuperAdmin`, whatever the
token claimed. -/
theorem contextRefreshAuthoritative (db : UsersDb) (data : RequestContextData)
    (handlerOk : Bool) (hauth : jsTruthy data.userId = true) :
    (lookupUser db data.actorType data.userId = none →
      (runWithTransaction db data handlerOk).outcome = .error .unauthenticated ∧
      (runWithTransaction db data handlerOk).installed = none ∧
      countEv .handlerRun (runWithTransaction db data handlerOk).events = 0 ∧
      ∃ l, (runWithTransaction db data handlerOk).events =
        l ++ [Ev.rollback, Ev.release]) ∧
    (∀ row, lookupUser db data.actorType data.userId = some row →
      refreshUserContext db data = .ok (adoptRow data row) ∧
      (∀ evs eff, setupTransaction db data = (evs, .ok eff) →
        eff = adoptRow data row) ∧
      (∀ eff, (runWithTransaction db data handlerOk).installed = some eff →
        eff.companyId = row.companyId ∧ eff.branchId = row.branchId ∧
        eff.isSuperAdmin = row.isSuperAdmin)) := by
  constructor
  · intro hlook
    have href : refreshUserContext db data = .error .unauthenticated := by
      simp [refreshUserContext, hlook]
    have hs : setupTransaction db data =
        ([Ev.acquire, Ev.beginTx, Ev.setRole] ++
          [Ev.setSuper true, Ev.setCompany "", Ev.queryUser] ++
          [Ev.rollback, Ev.release], .error .unauthenticated) := by
      simp [setupTransaction, hauth, href]
    refine ⟨?_, ?_, ?_,
      ⟨[Ev.acquire, Ev.beginTx, Ev.setRole] ++
        [Ev.setSuper true, Ev.setCompany "", Ev.queryUser], ?_⟩⟩ <;>
      simp [runWithTransaction, hs, countEv_append, countEv, List.append_assoc]
  · intro row hrow
    have hadopt : refreshUserContext db data = .ok (adoptRow data row) := by
      simp [refreshUserContext, adoptRow, hrow]
    have hkey : ∀ evs eff, setupTransaction db data = (evs, .ok eff) →
        eff = adoptRow data row := by
      intro evs eff hset
      rcases setRlsContext_shape (adoptRow data row) with ⟨b, c, hrls⟩ | hrls
      · simp [setupTransaction, hauth, hadopt, hrls] at hset
        exact hset.2.symm
      · simp [setupTransaction, hauth, hadopt, hrls] at hset
    refine ⟨hadopt, hkey, ?_⟩
    intro eff hinst
    rcases hsp : setupTransaction db data with ⟨evs, res⟩
    cases res with
    | error e => simp [runWithTransaction, hsp] at hinst
    | ok eff0 =>
      have he : eff0 = adoptRow data row := hkey evs eff0 hsp
      cases handlerOk <;> simp [runWithTransaction, hsp] at hinst <;>
        rw [← hinst, he] <;> simp [adoptRow]

theorem contextRefreshAuthoritative_witness :
    refreshUserContext usersDbSample staleDataSample =
      .ok (adoptRow staleDataSample webUserRowSample) :=
  ((contextRefreshAuthoritative usersDbSample staleDataSample true
    (by decide)).2 webUserRowSample (by decide)).1

/-- Claim C6: the guard allows a request exactly when the required permission
set is empty, or the actor is a superadmin, or the mobile self-service case
applies, or every required permission occurs in the actor's authorization
list; in every other case it raises FORBIDDEN. -/
theorem rolesGuardAllowIff (required : Option (List String))
    (user : Option JwtUser) (handlerName : String) (paramsId : Option String) :
    (canActivate required user handlerName paramsId = .ok true ∨
     canActivate required user handlerName paramsId = .error .forbidden) ∧
    (canActivate required user handlerName paramsId = .ok true ↔
      (required.getD [] = [] ∨
       (∃ u, user = some u ∧ u.isSuperAdmin = true) ∨
       mobileSelfAllowed user handlerName paramsId = true ∨
       (∃ u role auths, user = some u ∧ u.role = some role ∧
         role.authorizations = some auths ∧
         ∀ p ∈ required.getD [], p ∈ auths))) := by
  rcases required with _ | req
  · exact ⟨Or.inl rfl, by simp [canActivate]⟩
  · cases req with
    | nil => exact ⟨Or.inl (by simp [canActivate]), by simp [canActivate]⟩
    | cons p0 ps =>
      cases user with
      | none =>
        refine ⟨Or.inr ?_, ?_⟩ <;> simp [canActivate, mobileSelfAllowed]
      | some u =>
        cases hsa : u.isSuperAdmin with
        | true =>
          refine ⟨Or.inl ?_, ?_⟩ <;> simp [canActivate, hsa]
        | false =>
          cases hmob : mobileSelfAllowed (some u) handlerName paramsId with
          | true =>
            refine ⟨Or.inl ?_, ?_⟩ <;> simp [canActivate, hsa, hmob]
          | false =>
            cases hrole : u.role with
            | none =>
              refine ⟨Or.inr ?_, ?_⟩ <;>
                simp [canActivate, hsa, hmob, hrole]
            | some role =>
              cases hauth : role.authorizations with
              | none =>
                refine ⟨Or.inr ?_, ?_⟩ <;>
                  simp [canActivate, hsa, hmob, hrole, hauth]
              | some auths =>
                cases hall : (p0 :: ps).all (fun p => decide (p ∈ auths)) with
                | true =>
                  have hall2 : p0 ∈ auths ∧ ∀ a ∈ ps, a ∈ auths := by
                    have h1 := List.all_eq_true.mp hall
                    simp only [decide_eq_true_eq] at h1
                    exact ⟨h1 p0 (by simp), fun a ha => h1 a (by simp [ha])⟩
                  refine ⟨Or.inl ?_, ?_⟩
                  · simp [canActivate, hsa, hmob, hrole, hauth, hall]
                  · simp [canActivate, hsa, hmob, hrole, hauth, hall, hall2]
                    exact hall2.2
                | false =>
                  have hall2 : ¬ (p0 ∈ auths ∧ ∀ a ∈ ps, a ∈ auths) := by
                    intro hcon
                    have htrue : (p0 :: ps).all (fun p => decide (p ∈ auths)) =
                        true := by
                      simp only [List.all_eq_true, decide_eq_true_eq,
                        List.forall_mem_cons]
                      exact hcon
                    rw [htrue] at hall
                    exact absurd hall (by simp)
                  refine ⟨Or.inr ?_, ?_⟩
                  · simp [canActivate, hsa, hmob, hrole, hauth, hall]
                  · simp [canActivate, hsa, hmob, hrole, hauth, hall]
                    intro hp0
                    by_contra hno
                    push_neg at hno
                    exact hall2 ⟨hp0, hno⟩

/-- Claim C7: invite-code registration fails with BAD_REQUEST when no invite
row with the code and `usedAt` null exists, when the invite is expired, or
when the trimmed-lowercased username is already taken in the invite's
company — in each case the state is returned unchanged (the transaction is
rolled back) — and on success the mobile-user insert and the invite's
`usedAt`/`usedByMobileUserId` update are applied together. -/
theorem inviteRegistrationAtomic (st : RegState)
    (username password inviteCode : String) (now : Nat) (newId : String)
    (h : String → String) :
    (findValidInviteByCode st.invites inviteCode = none →
      registerWithInviteCode st username password inviteCode now newId h =
        (st, .error .invalidOrUsed)) ∧
    (∀ invite, findValidInviteByCode st.invites inviteCode = some invite →
      inviteExpired invite now = true →
      registerWithInviteCode st username password inviteCode now newId h =
        (st, .error .expired)) ∧
    (∀ invite u, findValidInviteByCode st.invites inviteCode = some invite →
      inviteExpired invite now = false →
      findByUsernameAndCompanyId st.mobileUsers (normalizeUsername username)
        invite.companyId = some u →
      registerWithInviteCode st username password inviteCode now newId h =
        (st, .error .usernameTaken)) ∧
    (∀ invite, findValidInviteByCode st.invites inviteCode = some invite →
      inviteExpired invite now = false →
      findByUsernameAndCompanyId st.mobileUsers (normalizeUsername username)
        invite.companyId = none →
      registerWithInviteCode st username password inviteCode now newId h =
        ({ invites := markInviteAsUsed st.invites invite.id newId now
           mobileUsers := st.mobileUsers ++
             [newMobileUserFromInvite invite (normalizeUsername username)
               (h password) newId] },
         .ok (newMobileUserFromInvite invite (normalizeUsername username)
           (h password) newId)) ∧
      (∀ i ∈ st.invites, i.id = invite.id →
        { i with usedAt := some now, usedByMobileUserId := some newId } ∈
          (registerWithInviteCode st username password inviteCode now newId
            h).1.invites)) := by
  refine ⟨?_, ?_, ?_, ?_⟩
  · intro hfound
    simp [registerWithInviteCode, hfound]
  · intro invite hfound hexp
    simp [registerWithInviteCode, hfound, hexp]
  · intro invite u hfound hexp hdup
    simp [registerWithInviteCode, hfound, hexp, hdup]
  · intro invite hfound hexp hnone
    have hsucc : registerWithInviteCode st username password inviteCode now
        newId h =
        ({ invites := markInviteAsUsed st.invites invite.id newId now
           mobileUsers := st.mobileUsers ++
             [newMobileUserFromInvite invite (normalizeUsername username)
               (h password) newId] },
         .ok (newMobileUserFromInvite invite (normalizeUsername username)
           (h password) newId)) := by
      simp [registerWithInviteCode, hfound, hexp, hnone]
    refine ⟨hsucc, ?_⟩
    intro i hi hid
    rw [hsucc]
    dsimp only
    simp only [markInviteAsUsed]
    refine List.mem_map.mpr ⟨i, hi, ?_⟩
    rw [if_pos hid]

theorem inviteRegistrationAtomic_witness :
    registerWithInviteCode regStateSample "driver1" "pw" "ABCD1234" 100
        "m-new" (fun s => s) =
      ({ invites := markInviteAsUsed regStateSample.invites inviteSample.id
           "m-new" 100
         mobileUsers := regStateSample.mobileUsers ++
           [newMobileUserFromInvite inviteSample
             (normalizeUsername "driver1") ((fun s => s) "pw") "m-new"] },
       .ok (newMobileUserFromInvite inviteSample (normalizeUsername "driver1")
         ((fun s => s) "pw") "m-new")) :=
  ((inviteRegistrationAtomic regStateSample "driver1" "pw" "ABCD1234" 100
    "m-new" (fun s => s)).2.2.2 inviteSample (by decide) (by decide)
    (by decide)).1

/-- Claim C9 (counterexample): the refresh-token secret produced by the code
is a `uuidv4()` string, which contains hyphens and is therefore not a pure
hexadecimal encoding as the claim states — exhibited on a concrete value in
the image of `uuidv4()`: the issued token's secret part fails the claimed
hex-only format. -/
theorem refreshTokenSecretNotPureHex :
    isUuidV4String uuidSecretSample = true ∧
    (generateRefreshToken (fun s => "bcrypt-" ++ s) uuidSecretSample "fam-1"
        "row-1" (some "user-1") none none 0 7 []).2.token =
      "row-1." ++ uuidSecretSample ∧
    specHexSecret uuidSecretSample = false := by
  refine ⟨by decide, by decide, by decide⟩

/-- Claim C9 (amended): every refresh token handed to clients has the form
`id.secret` where `id` is the stored row's id and the secret is a version-4
UUID string — five hyphen-separated hexadecimal groups of sizes 8-4-4-4-12,
32 hex digits in total — and the row stores only the bcrypt hash of the
secret, never the secret itself. -/
theorem refreshTokenUuidFormat (h : String → String)
    (freshSecret freshFamilyId newRowId : String)
    (userId mobileUserId familyId : Option String) (now expiresInDays : Nat)
    (db : List RefreshTokenRow)
    (hfmt : isUuidV4String freshSecret = true) :
    ∃ row : RefreshTokenRow,
      (generateRefreshToken h freshSecret freshFamilyId newRowId userId
        mobileUserId familyId now expiresInDays db).1 = db ++ [row] ∧
      (generateRefreshToken h freshSecret freshFamilyId newRowId userId
        mobileUserId familyId now expiresInDays db).2.token =
        row.id ++ "." ++ freshSecret ∧
      row.id = newRowId ∧
      row.tokenHash = h freshSecret ∧
      (h freshSecret ≠ freshSecret → row.tokenHash ≠ freshSecret) ∧
      ∃ a b c d e : List Char,
        splitOnChar '-' freshSecret.data = [a, b, c, d, e] ∧
        a.length = 8 ∧ b.length = 4 ∧ c.length = 4 ∧ d.length = 4 ∧
        e.length = 12 ∧
        (a ++ b ++ c ++ d ++ e).all isHexDigit = true ∧
        (a ++ b ++ c ++ d ++ e).length = 32 := by
  refine ⟨{ id := newRowId
            userId := orUndefined userId
            mobileUserId := orUndefined mobileUserId
            tokenHash := h freshSecret
            expiresAt := addDaysMs now expiresInDays
            isRevoked := false
            familyId := if jsTruthy familyId then familyId.getD freshFamilyId
              else freshFamilyId },
    by simp [generateRefreshToken], by simp [generateRefreshToken], rfl, rfl,
    fun hne => hne, ?_⟩
  unfold isUuidV4String at hfmt
  rcases hsp : splitOnChar '-' freshSecret.data with
    _ | ⟨a, _ | ⟨b, _ | ⟨c, _ | ⟨d, _ | ⟨e, _ | ⟨f, rest⟩⟩⟩⟩⟩⟩ <;>
    rw [hsp] at hfmt
  · exact absurd hfmt (by simp)
  · exact absurd hfmt (by simp)
  · exact absurd hfmt (by simp)
  · exact absurd hfmt (by simp)
  · exact absurd hfmt (by simp)
  · simp only [isHexGroup, Bool.and_eq_true, decide_eq_true_eq] at hfmt
    obtain ⟨⟨⟨⟨⟨⟨⟨ha2, hahex⟩, ⟨hb2, hbhex⟩⟩, ⟨hc2, hchex⟩⟩, ⟨hd2, hdhex⟩⟩,
      ⟨he2, hehex⟩⟩, hm1⟩, hm2⟩ := hfmt
    refine ⟨a, b, c, d, e, rfl, ha2, hb2, hc2, hd2, he2, ?_, ?_⟩
    · simp [List.all_append, hahex, hbhex, hchex, hdhex, hehex]
    · simp [List.length_append, ha2, hb2, hc2, hd2, he2]
  · exact absurd hfmt (by simp)

theorem refreshTokenUuidFormat_witness :
    ∃ row : RefreshTokenRow,
      (generateRefreshToken (fun s => s) uuidSecretSample "fam-1" "row-1"
        (some "user-1") none none 0 7 []).1 = [] ++ [row] ∧
      row.tokenHash = (fun s : String => s) uuidSecretSample := by
  obtain ⟨row, h1, _, _, h4, _⟩ := refreshTokenUuidFormat (fun s => s)
    uuidSecretSample "fam-1" "row-1" (some "user-1") none none 0 7 []
    (by decide)
  exact ⟨row, h1, h4⟩

end Rouptimize
